import Mathlib

/-!
Verification development for the pyomechanics kinematic core.

This file gives a shallow embedding of `pyomechanics/utils.py` (marker
dependency graph and virtual-marker synthesis) and `pyomechanics/body.py`
(segment frames, joints and joint-angle extraction), together with theorems
settling the specification claims about them.

Modelling conventions:
- A marker position sample is a 3-vector over a field `K` (rationals in
  concrete witnesses, reals in the frame geometry).  A numpy NaN sample is
  modelled as `Option.none`; numpy arithmetic on NaN propagates NaN, which
  corresponds to `Option.map`-style propagation, and a numpy comparison
  `NaN > c` is `False`, which corresponds to the `none` branch below.
- A ktk `TimeSeries` data dictionary is modelled as a list of channel keys
  plus a total lookup function (a channel absent from `keys` is the
  dict-lookup `KeyError` case and is guarded by the same membership tests
  the Python code performs).
- The kineticstoolkit geometry routines (`create_frames`,
  `get_local_coordinates`, `get_angles`) are third-party code that is not
  part of this repository; they are modelled from the specification's
  contracts for the Segment Frame Builder and the Joint Angle Extractor.
  The Euler decomposition itself is kept abstract (theorems quantify over
  it), since no settled claim depends on its numeric content.
-/

namespace Pyomech

open Matrix

/-- A 3-component position over a field `K` (one marker at one sample). -/
abbrev V3 (K : Type) := Fin 3 → K

/-- Shallow model of a ktk TimeSeries data dictionary with `n` time samples:
the list of channel names present (dict keys, in insertion order) and the
per-channel, per-sample values; `none` models a NaN (undefined) sample. -/
structure TimeSeries (n : ℕ) (α : Type) where
  keys : List String
  data : String → Fin n → Option α

/-- Model of `ktk.TimeSeries.rename_data(old, new)`: the channel keyed `old`
is removed and its values re-inserted under `new` (at the end of the dict). -/
def renameData {n : ℕ} {α : Type} (m : TimeSeries n α) (a b : String) :
    TimeSeries n α :=
  ⟨(m.keys.erase a) ++ [b],
   fun s => if s = b then m.data a else if s = a then fun _ => none else m.data s⟩

/-- Model of `ktk.TimeSeries.add_data(name, value, overwrite=True)`:
dict assignment (an existing key keeps its position, a new key goes last). -/
def addData {n : ℕ} {α : Type} (m : TimeSeries n α) (name : String)
    (vals : Fin n → Option α) : TimeSeries n α :=
  ⟨if name ∈ m.keys then m.keys else m.keys ++ [name],
   fun s => if s = name then vals else m.data s⟩

/-- The fixed list of derived ("is_custom") marker nodes of
`generate_marker_graph`, in insertion order (utils.py lines 11-31).  This is
also the processing order used by the driver script, which collects the
`is_custom` nodes in graph insertion order. -/
def customNodes : List String :=
  ["torso_m", "thorax_m", "shoulder_r", "shoulder_l", "elbow_r", "elbow_l",
   "scapula_r", "scapula_l", "wrist_r", "wrist_l", "hip_r", "hip_l",
   "pelvis_m", "knee_r", "knee_l", "ankle_r", "ankle_l", "heel_r", "heel_l"]

/-- The fixed edge list of `generate_marker_graph` (utils.py lines 32-66),
each edge pointing from a contributing marker to the derived marker. -/
def markerEdges : List (String × String) :=
  [("RSHO", "torso_m"), ("LSHO", "torso_m"),
   ("T10", "thorax_m"), ("STRN", "thorax_m"),
   ("RSHO", "shoulder_r"), ("LSHO", "shoulder_l"),
   ("RELB", "elbow_r"), ("RMELB", "elbow_r"),
   ("LELB", "elbow_l"), ("LMELB", "elbow_l"),
   ("RSHO", "scapula_r"), ("torso_m", "scapula_r"),
   ("LSHO", "scapula_l"), ("torso_m", "scapula_l"),
   ("RWRA", "wrist_r"), ("RWRB", "wrist_r"),
   ("LWRA", "wrist_l"),
   ("RASI", "hip_r"), ("RPSI", "hip_r"),
   ("LASI", "hip_l"), ("LPSI", "hip_l"),
   ("hip_l", "pelvis_m"), ("hip_r", "pelvis_m"),
   ("RKNE", "knee_r"), ("RMKNE", "knee_r"),
   ("LKNE", "knee_l"), ("LMKNE", "knee_l"),
   ("RANK", "ankle_r"), ("RMANK", "ankle_r"),
   ("LANK", "ankle_l"), ("LMANK", "ankle_l"),
   ("RHEE", "heel_r"), ("LHEE", "heel_l")]

/-- A directed marker graph: node list plus edge list. -/
structure MarkerGraph where
  nodes : List String
  edges : List (String × String)

/-- Model of `generate_marker_graph`: the input marker names plus the fixed
custom nodes, with the fixed edge list. -/
def generate_marker_graph (markerNames : List String) : MarkerGraph :=
  ⟨markerNames ++ customNodes, markerEdges⟩

/-- Direct predecessors of a node, in edge insertion order (the iteration
order of `networkx.DiGraph.predecessors`). -/
def predecessors (g : MarkerGraph) (v : String) : List String :=
  (g.edges.filter (fun e => e.2 == v)).map Prod.fst

/-- Collapse a list of optional values: `some` of the list when every entry
is defined, `none` as soon as one entry is undefined (NaN propagation of a
numpy aggregate over a stack of arrays). -/
def optionList {α : Type} : List (Option α) → Option (List α)
  | [] => some []
  | none :: _ => none
  | some a :: r => (optionList r).map (fun l => a :: l)

/-- Componentwise arithmetic mean of a list of 3-vectors (`np.mean(-, axis=0)`). -/
def listMean {K : Type} [Field K] (l : List (V3 K)) : V3 K :=
  fun i => (l.map (fun v => v i)).sum / l.length

/-- Per-sample mean of a list of (possibly NaN) position series, as computed
by `np.mean([...], axis=0)`: NaN at a sample whenever any input is NaN there,
and NaN everywhere for an empty list. -/
def meanSeries {n : ℕ} {K : Type} [Field K]
    (series : List (Fin n → Option (V3 K))) : Fin n → Option (V3 K) :=
  fun t =>
    if series.isEmpty then none
    else (optionList (series.map (fun f => f t))).map listMean

/-- One iteration of the `add_custom_markers` loop body (utils.py lines
71-78) for derived node `p`: pass-through (self-rename) when a channel named
`p` already exists, otherwise derive `p` as the mean of its graph
predecessors; a predecessor absent from the data dictionary raises (the
`markers.data[parent]` dict lookup), surfacing that predecessor's name. -/
def addCustomStep {n : ℕ} {K : Type} [Field K] (g : MarkerGraph)
    (m : TimeSeries n (V3 K)) (p : String) :
    Except String (TimeSeries n (V3 K)) :=
  if p ∈ m.keys then .ok (renameData m p p)
  else
    match (predecessors g p).find? (fun q => decide (q ∉ m.keys)) with
    | some q => .error q
    | none => .ok (addData m p (meanSeries ((predecessors g p).map (fun q => m.data q))))

/-- Model of `add_custom_markers`: fold the loop body over the derived node
names in list order, aborting on the first raised error. -/
def add_custom_markers {n : ℕ} {K : Type} [Field K] (g : MarkerGraph)
    (m : TimeSeries n (V3 K)) : List String → Except String (TimeSeries n (V3 K))
  | [] => .ok m
  | p :: rest =>
    match addCustomStep g m p with
    | .error e => .error e
    | .ok m2 => add_custom_markers g m2 rest

/-- Model of `subtract_series(a, b, ts)` = `ts.data[a] - ts.data[b]` at one
sample, with NaN propagation. -/
def subtract_series {n : ℕ} {K : Type} [Field K] (a b : String)
    (ts : TimeSeries n (V3 K)) : Fin n → Option (V3 K) :=
  fun t =>
    match ts.data a t, ts.data b t with
    | some x, some y => some (x - y)
    | _, _ => none

/-- The body-segment configuration record of `body.py` (`Part` dataclass):
a name, an origin marker, and the optional axis-definition marker pairs. -/
structure Part where
  name : String
  origin : String
  y_direction : Option (String × String) := none
  yz_direction : Option (String × String) := none
  x_direction : Option (String × String) := none
  xz_direction : Option (String × String) := none
deriving DecidableEq

/-- The `axis_frames_name` property: the channel name under which a Part's
frames are stored. -/
def Part.axis_frames_name (p : Part) : String := p.name ++ "_frames"

/-- Real 3-vectors, for the frame geometry. -/
abbrev V3R := V3 ℝ

/-- A rigid pose: a 3-by-3 rotation (columns are the segment axes in the lab
frame) plus a translation (the segment origin).  This models one 4-by-4
homogeneous transform sample of ktk. -/
structure Pose where
  rot : Matrix (Fin 3) (Fin 3) ℝ
  trans : V3R

/-- The matrix whose columns are the given three vectors. -/
def colMatrix (x y z : V3R) : Matrix (Fin 3) (Fin 3) ℝ :=
  Matrix.of (fun i j => ![x, y, z] j i)

/-- Column `j` of a 3-by-3 matrix. -/
def col (M : Matrix (Fin 3) (Fin 3) ℝ) (j : Fin 3) : V3R := fun i => M i j

/-- Modelled from the spec: unit normalization of a 3-vector (step 1 and 2 of
the Segment Frame Builder contract), part of the external
`ktk.geometry.create_frames`. -/
noncomputable def unitize (v : V3R) : V3R := (Real.sqrt (v ⬝ᵥ v))⁻¹ • v

/-- Modelled from the spec: one Segment Frame Builder sample when the primary
axis is Y and the auxiliary vector lies in the YZ plane, part of the external
`ktk.geometry.create_frames`: `Y = normalize(v)`, `X = normalize(Y x w)`,
`Z = X x Y`, columns assembled as the rotation, origin as translation. -/
noncomputable def mkFrameY (o v w : V3R) : Pose :=
  let y := unitize v
  let x := unitize (y ×₃ w)
  ⟨colMatrix x y (x ×₃ y), o⟩

/-- Modelled from the spec: the symmetric Segment Frame Builder construction
when the primary axis is X and the auxiliary vector lies in the XZ plane,
part of the external `ktk.geometry.create_frames`: `X = normalize(v)`,
`Y = normalize(w x X)`, `Z = X x Y`. -/
noncomputable def mkFrameX (o v w : V3R) : Pose :=
  let x := unitize v
  let y := unitize (w ×₃ x)
  ⟨colMatrix x y (x ×₃ y), o⟩

/-- Apply a ternary function under three options, `none` if any is `none`. -/
def opt3 {α β γ δ : Type} (f : α → β → γ → δ) :
    Option α → Option β → Option γ → Option δ
  | some a, some b, some c => some (f a b c)
  | _, _, _ => none

/-- Apply a binary function under two options, `none` if either is `none`. -/
def map2Opt {α β γ : Type} (f : α → β → γ) : Option α → Option β → Option γ
  | some a, some b => some (f a b)
  | _, _ => none

/-- Model of `Part.create_axis_frames` (body.py lines 20-28): per sample,
build the segment pose from the origin marker and the configured direction
pairs (primary Y with plane YZ, or primary X with plane XZ); any undefined
input marker at a sample makes the pose undefined at that sample. -/
noncomputable def Part.create_axis_frames {n : ℕ} (p : Part)
    (ts : TimeSeries n V3R) : Fin n → Option Pose :=
  fun t =>
    match p.y_direction, p.yz_direction with
    | some yd, some yzd =>
        opt3 mkFrameY (ts.data p.origin t)
          (subtract_series yd.1 yd.2 ts t) (subtract_series yzd.1 yzd.2 ts t)
    | _, _ =>
      match p.x_direction, p.xz_direction with
      | some xd, some xzd =>
          opt3 mkFrameX (ts.data p.origin t)
            (subtract_series xd.1 xd.2 ts t) (subtract_series xzd.1 xzd.2 ts t)
      | _, _ => none

/-- The input marker channels a Part's frame construction reads, following
the same branch structure as `Part.create_axis_frames`. -/
def partMarkers (p : Part) : List String :=
  match p.y_direction, p.yz_direction with
  | some yd, some yzd => [p.origin, yd.1, yd.2, yzd.1, yzd.2]
  | _, _ =>
    match p.x_direction, p.xz_direction with
    | some xd, some xzd => [p.origin, xd.1, xd.2, xzd.1, xzd.2]
    | _, _ => [p.origin]

/-- Pose composition (homogeneous 4-by-4 multiplication). -/
noncomputable def poseMul (p q : Pose) : Pose :=
  ⟨p.rot * q.rot, p.rot *ᵥ q.trans + p.trans⟩

/-- Rigid inverse of a pose with orthonormal rotation: transpose the rotation
and invert the translation through it. -/
noncomputable def rigidInv (p : Pose) : Pose :=
  ⟨p.rot.transpose, -(p.rot.transpose *ᵥ p.trans)⟩

/-- Modelled from the spec: the external `ktk.geometry.get_local_coordinates`
per sample — express a global pose in the reference pose's local frame by
composing with the reference's rigid inverse. -/
noncomputable def get_local_coordinates (globalPose reference : Pose) : Pose :=
  poseMul (rigidInv reference) globalPose

/-- The six joint types of the fixed body-model catalog. -/
inductive JointKind
  | shoulder | elbow | wrist | hip | knee | ankle
deriving DecidableEq

/-- The joint record of `body.py`: a type, a proximal and a distal Part, and
an optional side tag. -/
structure Joint where
  kind : JointKind
  proximal : Part
  distal : Part
  side : Option String := none
deriving DecidableEq

/-- The per-class `angle_seq` attribute: "YXY" for Shoulder, "ZXY" for the
other joint classes. -/
def angle_seq : JointKind → String
  | .shoulder => "YXY"
  | _ => "ZXY"

/-- A map from channel name to a frames series, as produced by storing each
part's frames in the time series under its `axis_frames_name`. -/
def FramesMap (n : ℕ) := String → Option (Fin n → Option Pose)

/-- Model of `Joint.transforms` (body.py lines 38-41): per sample, the distal
frames expressed in the proximal frames' local coordinates; undefined when
either pose is undefined at the sample. -/
noncomputable def Joint.transforms {n : ℕ} (j : Joint) (frames : FramesMap n) :
    Fin n → Option Pose :=
  fun t =>
    (map2Opt (fun df pf => map2Opt get_local_coordinates (df t) (pf t))
      (frames j.distal.axis_frames_name) (frames j.proximal.axis_frames_name)).join

/-- An abstract Euler/Cardan decomposition: from an axis-sequence name and a
rotation matrix to three angles in degrees.  The external
`ktk.geometry.get_angles` is one such function; the claims settled here hold
for every such function, so theorems quantify over it. -/
abbrev AngleDecomp := String → Matrix (Fin 3) (Fin 3) ℝ → Fin 3 → ℝ

/-- Model of the shared `Joint.angles` body (body.py lines 43-51): decompose
each sample's relative transform with the joint's sequence, then apply
`angle * sign + adjustment` per axis; an undefined transform sample yields
undefined angles at that sample (NaN arithmetic). -/
noncomputable def baseAngles {n : ℕ} (decomp : AngleDecomp) (j : Joint)
    (frames : FramesMap n) (signs adjustments : Fin 3 → ℝ) :
    Fin n → Fin 3 → Option ℝ :=
  fun t i =>
    (j.transforms frames t).map
      (fun T => decomp (angle_seq j.kind) T.rot i * signs i + adjustments i)

/-- Shoulder sign selection (body.py lines 58-60). -/
def shoulderSigns (side : Option String) : Fin 3 → ℝ :=
  if side = some "R" then ![-1, 1, -1] else ![1, 1, 1]

/-- The declared default Shoulder sign vector. -/
def shoulderDefaultSigns : Fin 3 → ℝ := ![1, 1, 1]

/-- Elbow sign selection (body.py lines 68-72). -/
def elbowSigns (side : Option String) : Fin 3 → ℝ :=
  if side = some "R" then ![-1, 1, 1]
  else if side = some "L" then ![1, 1, -1]
  else ![1, 1, 1]

/-- The declared default Elbow sign vector. -/
def elbowDefaultSigns : Fin 3 → ℝ := ![1, 1, 1]

/-- The declared default Elbow adjustment vector. -/
def elbowAdjustments : Fin 3 → ℝ := ![0, 0, 180]

/-- Wrist sign selection (body.py lines 85-87), keyed to the batter's hand. -/
def wristSigns (side : Option String) (batter_hand : String) : Fin 3 → ℝ :=
  if side = some batter_hand then ![-1, -1, 1] else ![1, -1, 1]

/-- The declared default Wrist sign vector. -/
def wristDefaultSigns : Fin 3 → ℝ := ![1, -1, 1]

/-- Hip sign selection (body.py lines 98-100). -/
def hipSigns (side : Option String) : Fin 3 → ℝ :=
  if side = some "L" then ![1, 1, -1] else ![-1, 1, 1]

/-- The declared default Hip sign vector. -/
def hipDefaultSigns : Fin 3 → ℝ := ![-1, 1, 1]

/-- Knee sign selection (body.py lines 108-110). -/
def kneeSigns (side : Option String) : Fin 3 → ℝ :=
  if side = some "L" then ![-1, 1, 1] else ![1, 1, 1]

/-- The declared default Knee sign vector. -/
def kneeDefaultSigns : Fin 3 → ℝ := ![1, 1, 1]

/-- Ankle sign selection (body.py lines 122-124). -/
def ankleSigns (side : Option String) : Fin 3 → ℝ :=
  if side = some "L" then ![1, 1, 1] else ![1, 1, -1]

/-- The declared default Ankle sign vector. -/
def ankleDefaultSigns : Fin 3 → ℝ := ![1, 1, -1]

/-- The Elbow z-angle correction (body.py line 77): wherever the angle
exceeds 340 degrees, subtract 360. -/
noncomputable def elbowUnwrap (v : ℝ) : ℝ := if v > 340 then v - 360 else v

/-- `Shoulder.angles` (body.py lines 58-61). -/
noncomputable def shoulderAngles {n : ℕ} (decomp : AngleDecomp) (j : Joint)
    (frames : FramesMap n) : Fin n → Fin 3 → Option ℝ :=
  baseAngles decomp j frames (shoulderSigns j.side) ![0, 0, 0]

/-- `Elbow.angles` (body.py lines 68-78): side-dependent signs, adjustment
(0,0,180), then the y-angle is forced to exactly 0 for every sample (a numpy
column assignment, which overwrites NaN samples too) and the z-angle is
unwrapped above 340 degrees (a numpy boolean mask, which never selects NaN
samples since `NaN > 340` is false). -/
noncomputable def elbowAngles {n : ℕ} (decomp : AngleDecomp) (j : Joint)
    (frames : FramesMap n) : Fin n → Fin 3 → Option ℝ :=
  fun t i =>
    if i = 1 then some 0
    else if i = 2 then
      (baseAngles decomp j frames (elbowSigns j.side) elbowAdjustments t i).map elbowUnwrap
    else baseAngles decomp j frames (elbowSigns j.side) elbowAdjustments t i

/-- `Wrist.angles` (body.py lines 85-91): side/batter-hand dependent signs,
then the z-angle is forced to exactly 0 for every sample. -/
noncomputable def wristAngles {n : ℕ} (decomp : AngleDecomp) (j : Joint)
    (frames : FramesMap n) (batter_hand : String) : Fin n → Fin 3 → Option ℝ :=
  fun t i =>
    if i = 2 then some 0
    else baseAngles decomp j frames (wristSigns j.side batter_hand) ![0, 0, 0] t i

/-- `Hip.angles` (body.py lines 98-101). -/
noncomputable def hipAngles {n : ℕ} (decomp : AngleDecomp) (j : Joint)
    (frames : FramesMap n) : Fin n → Fin 3 → Option ℝ :=
  baseAngles decomp j frames (hipSigns j.side) ![0, 0, 0]

/-- `Knee.angles` (body.py lines 108-115): side-dependent signs, then the y
and z angles are forced to exactly 0 for every sample. -/
noncomputable def kneeAngles {n : ℕ} (decomp : AngleDecomp) (j : Joint)
    (frames : FramesMap n) : Fin n → Fin 3 → Option ℝ :=
  fun t i =>
    if i = 1 then some 0
    else if i = 2 then some 0
    else baseAngles decomp j frames (kneeSigns j.side) ![0, 0, 0] t i

/-- `Ankle.angles` (body.py lines 122-125). -/
noncomputable def ankleAngles {n : ℕ} (decomp : AngleDecomp) (j : Joint)
    (frames : FramesMap n) : Fin n → Fin 3 → Option ℝ :=
  baseAngles decomp j frames (ankleSigns j.side) ![90, 0, 0]

/-- The public per-joint `angles` operation: dispatch on the joint class. -/
noncomputable def jointAngles {n : ℕ} (decomp : AngleDecomp)
    (batter_hand : String) (frames : FramesMap n) (j : Joint) :
    Fin n → Fin 3 → Option ℝ :=
  match j.kind with
  | .shoulder => shoulderAngles decomp j frames
  | .elbow => elbowAngles decomp j frames
  | .wrist => wristAngles decomp j frames batter_hand
  | .hip => hipAngles decomp j frames
  | .knee => kneeAngles decomp j frames
  | .ankle => ankleAngles decomp j frames

/-- The axes a joint class forces to exactly 0 in post-correction. -/
def forcedZeroAxis : JointKind → Fin 3 → Bool
  | .elbow, i => i == 1
  | .wrist, i => i == 2
  | .knee, i => i == 1 || i == 2
  | _, _ => false

/-- Catalog Part (body.py line 129). -/
def scapula_right : Part :=
  { name := "scapula_r", origin := "scapula_r",
    y_direction := some ("torso_m", "thorax_m"), yz_direction := some ("torso_m", "RSHO") }

/-- Catalog Part (body.py line 130). -/
def scapula_left : Part :=
  { name := "scapula_l", origin := "scapula_l",
    y_direction := some ("torso_m", "thorax_m"), yz_direction := some ("torso_m", "LSHO") }

/-- Catalog Part (body.py line 131). -/
def upper_arm_right : Part :=
  { name := "upper_arm_r", origin := "RSHO",
    y_direction := some ("RSHO", "elbow_r"), yz_direction := some ("RMELB", "RELB") }

/-- Catalog Part (body.py line 132). -/
def upper_arm_left : Part :=
  { name := "upper_arm_l", origin := "LSHO",
    y_direction := some ("LSHO", "elbow_l"), yz_direction := some ("LMELB", "LELB") }

/-- Catalog Part (body.py line 133). -/
def forearm_right : Part :=
  { name := "forearm_r", origin := "wrist_r",
    y_direction := some ("elbow_r", "wrist_r"), yz_direction := some ("RWRA", "RWRB") }

/-- Catalog Part (body.py line 134). -/
def forearm_left : Part :=
  { name := "forearm_l", origin := "wrist_l",
    y_direction := some ("elbow_l", "wrist_l"), yz_direction := some ("LWRA", "LWRB") }

/-- Catalog Part (body.py line 135). -/
def hand_right : Part :=
  { name := "hand_r", origin := "RFIN",
    y_direction := some ("wrist_r", "RFIN"), yz_direction := some ("RWRA", "RWRB") }

/-- Catalog Part (body.py line 136). -/
def hand_left : Part :=
  { name := "hand_l", origin := "LFIN",
    y_direction := some ("wrist_l", "LFIN"), yz_direction := some ("LWRA", "LWRB") }

/-- Catalog Part (body.py line 149). -/
def hip_right : Part :=
  { name := "hip_r", origin := "hip_r",
    y_direction := some ("thorax_m", "pelvis_m"), yz_direction := some ("pelvis_m", "hip_r") }

/-- Catalog Part (body.py line 150). -/
def hip_left : Part :=
  { name := "hip_l", origin := "hip_l",
    y_direction := some ("thorax_m", "pelvis_m"), yz_direction := some ("pelvis_m", "hip_l") }

/-- Catalog Part (body.py line 151). -/
def upper_leg_right : Part :=
  { name := "upper_leg_r", origin := "RTHI",
    y_direction := some ("hip_r", "knee_r"), yz_direction := some ("RMKNE", "RKNE") }

/-- Catalog Part (body.py line 152). -/
def upper_leg_left : Part :=
  { name := "upper_leg_l", origin := "LTHI",
    y_direction := some ("hip_l", "knee_l"), yz_direction := some ("LMKNE", "LKNE") }

/-- Catalog Part (body.py line 153). -/
def lower_leg_right : Part :=
  { name := "lower_leg_r", origin := "RTIB",
    y_direction := some ("knee_r", "ankle_r"), yz_direction := some ("RANK", "RMANK") }

/-- Catalog Part (body.py line 154). -/
def lower_leg_left : Part :=
  { name := "lower_leg_l", origin := "LTIB",
    y_direction := some ("knee_l", "ankle_l"), yz_direction := some ("LANK", "LMANK") }

/-- Catalog Part (body.py line 155). -/
def heel_right : Part :=
  { name := "heel_r", origin := "RHEE",
    y_direction := some ("RTIB", "RHEE"), yz_direction := some ("RANK", "RMANK") }

/-- Catalog Part (body.py line 156). -/
def heel_left : Part :=
  { name := "heel_l", origin := "LHEE",
    y_direction := some ("LTIB", "LHEE"), yz_direction := some ("LMANK", "LANK") }

/-- Catalog Part (body.py line 157). -/
def foot_right : Part :=
  { name := "foot_r", origin := "RTOE",
    x_direction := some ("RTOE", "RHEE"), xz_direction := some ("RANK", "RMANK") }

/-- Catalog Part (body.py line 158). -/
def foot_left : Part :=
  { name := "foot_l", origin := "LTOE",
    x_direction := some ("LTOE", "LHEE"), xz_direction := some ("LMANK", "LANK") }

/-- The upper-body segment catalog (body.py lines 137-146). -/
def upper_body_parts : List Part :=
  [scapula_right, scapula_left, upper_arm_right, upper_arm_left,
   forearm_right, forearm_left, hand_right, hand_left]

/-- The lower-body segment catalog (body.py lines 159-170). -/
def lower_body_parts : List Part :=
  [hip_right, hip_left, upper_leg_right, upper_leg_left,
   lower_leg_right, lower_leg_left, foot_right, foot_left,
   heel_right, heel_left]

/-- The full segment catalog (body.py line 172). -/
def parts : List Part := upper_body_parts ++ lower_body_parts

/-- Catalog Joint (body.py line 175). -/
def shoulder_joint_right : Joint :=
  { kind := .shoulder, proximal := scapula_right, distal := upper_arm_right, side := some "R" }

/-- Catalog Joint (body.py line 176). -/
def shoulder_joint_left : Joint :=
  { kind := .shoulder, proximal := scapula_left, distal := upper_arm_left, side := some "L" }

/-- Catalog Joint (body.py line 177). -/
def elbow_joint_right : Joint :=
  { kind := .elbow, proximal := upper_arm_right, distal := forearm_right, side := some "R" }

/-- Catalog Joint (body.py line 178). -/
def elbow_joint_left : Joint :=
  { kind := .elbow, proximal := upper_arm_left, distal := forearm_left, side := some "L" }

/-- Catalog Joint (body.py line 179). -/
def wrist_joint_right : Joint :=
  { kind := .wrist, proximal := forearm_right, distal := hand_right, side := some "R" }

/-- Catalog Joint (body.py line 180). -/
def wrist_joint_left : Joint :=
  { kind := .wrist, proximal := forearm_left, distal := hand_left, side := some "L" }

/-- Catalog Joint (body.py line 191). -/
def hip_joint_right : Joint :=
  { kind := .hip, proximal := hip_right, distal := upper_leg_right, side := some "R" }

/-- Catalog Joint (body.py line 192). -/
def hip_joint_left : Joint :=
  { kind := .hip, proximal := hip_left, distal := upper_leg_left, side := some "L" }

/-- Catalog Joint (body.py line 193). -/
def knee_joint_right : Joint :=
  { kind := .knee, proximal := upper_leg_right, distal := lower_leg_right, side := some "R" }

/-- Catalog Joint (body.py line 194). -/
def knee_joint_left : Joint :=
  { kind := .knee, proximal := upper_leg_left, distal := lower_leg_left, side := some "L" }

/-- Catalog Joint (body.py line 195). -/
def ankle_joint_right : Joint :=
  { kind := .ankle, proximal := heel_right, distal := foot_right, side := some "R" }

/-- Catalog Joint (body.py line 196). -/
def ankle_joint_left : Joint :=
  { kind := .ankle, proximal := heel_left, distal := foot_left, side := some "L" }

/-- The full joint catalog (body.py lines 181-206). -/
def joints : List Joint :=
  [shoulder_joint_right, shoulder_joint_left, elbow_joint_right, elbow_joint_left,
   wrist_joint_right, wrist_joint_left, hip_joint_right, hip_joint_left,
   knee_joint_right, knee_joint_left, ankle_joint_right, ankle_joint_left]

/-- The frames channels produced by the driver loop that stores
`part.create_axis_frames(markers)` under `part.axis_frames_name` for every
catalog part (compute_joint_angles.py lines 35-36). -/
noncomputable def framesOf {n : ℕ} (ps : List Part) (ts : TimeSeries n V3R) :
    FramesMap n :=
  fun s =>
    (ps.find? (fun p => p.axis_frames_name == s)).map
      (fun p => p.create_axis_frames ts)

/-- A validly configured test Part (primary Y pair and YZ-plane pair both
set) used in concrete scenarios. -/
def part_deg : Part :=
  { name := "deg", origin := "A",
    y_direction := some ("B", "A"), yz_direction := some ("C", "A") }

/-- A one-sample input in which every marker is defined and placed at the
same point (degenerate geometry). -/
def ts_deg : TimeSeries 1 V3R :=
  ⟨["A", "B", "C"], fun _ _ => some (fun _ => 0)⟩

/-- A two-sample input in which the marker "RSHO" is undefined (NaN) at
sample 0 only, and every other channel (the data lookup is total) is defined
everywhere. -/
def ts0 : TimeSeries 2 V3R :=
  ⟨["RSHO"], fun s t => if s = "RSHO" ∧ t = 0 then none else some (fun _ => 0)⟩

/-- A concrete (constant-zero) Euler decomposition used to instantiate the
abstract decomposition in concrete scenarios. -/
def decomp0 : AngleDecomp := fun _ _ _ => 0

/-- A concrete marker graph over a one-marker input, for witnesses. -/
def gW : MarkerGraph := generate_marker_graph ["LWRA"]

/-- A concrete one-sample rational input containing only the real marker
"LWRA". -/
def mW : TimeSeries 1 (V3 ℚ) :=
  ⟨["LWRA"], fun s _ => if s = "LWRA" then some (fun _ => 1) else none⟩

/-- The result of synthesizing "wrist_l" on `mW`. -/
def mW1 : TimeSeries 1 (V3 ℚ) :=
  addData mW "wrist_l"
    (meanSeries ((predecessors gW "wrist_l").map (fun q => mW.data q)))

/-- A concrete marker graph for the missing-predecessor witness. -/
def g6 : MarkerGraph := generate_marker_graph ["RSHO"]

/-- A concrete one-sample rational input that lacks "LWRA". -/
def m6 : TimeSeries 1 (V3 ℚ) :=
  ⟨["RSHO"], fun s _ => if s = "RSHO" then some (fun _ => 0) else none⟩

/-- A concrete wrist-marker position. -/
def va : V3 ℚ := fun _ => 1

/-- Another concrete wrist-marker position. -/
def vb : V3 ℚ := fun _ => 3

/-- A concrete one-sample rational input holding the three real wrist
markers. -/
def m10 : TimeSeries 1 (V3 ℚ) :=
  ⟨["LWRA", "RWRA", "RWRB"],
   fun s _ =>
     if s = "LWRA" then some (fun _ => 2)
     else if s = "RWRA" then some va
     else if s = "RWRB" then some vb
     else none⟩

/-- C2: for every abstract decomposition, every frames map (hence every input
time series, with defined or undefined samples), and every time sample, the
Elbow joints output exactly 0 at axis index 1, the Knee joints output exactly
0 at axis indices 1 and 2, and the Wrist joints output exactly 0 at axis
index 2. -/
theorem c2_constrained_axes_zero {n : ℕ} (decomp : AngleDecomp) (bh : String)
    (frames : FramesMap n) (t : Fin n) :
    jointAngles decomp bh frames elbow_joint_right t 1 = some 0
  ∧ jointAngles decomp bh frames elbow_joint_left t 1 = some 0
  ∧ jointAngles decomp bh frames knee_joint_right t 1 = some 0
  ∧ jointAngles decomp bh frames knee_joint_right t 2 = some 0
  ∧ jointAngles decomp bh frames knee_joint_left t 1 = some 0
  ∧ jointAngles decomp bh frames knee_joint_left t 2 = some 0
  ∧ jointAngles decomp bh frames wrist_joint_right t 2 = some 0
  ∧ jointAngles decomp bh frames wrist_joint_left t 2 = some 0 := by
  refine ⟨?_, ?_, ?_, ?_, ?_, ?_, ?_, ?_⟩ <;>
    simp [jointAngles, elbow_joint_right, elbow_joint_left, knee_joint_right,
      knee_joint_left, wrist_joint_right, wrist_joint_left, elbowAngles,
      kneeAngles, wristAngles]

/-- C3 counterexample: the claim that Ankle replaces its default sign vector
when and only when side is "R" is false on the code — at side "R" the Ankle
keeps its default sign vector, and at side "L" it replaces it. -/
theorem c3_counterexample :
    ankleSigns (some "R") = ankleDefaultSigns
  ∧ ankleSigns (some "L") ≠ ankleDefaultSigns := by
  constructor
  · rfl
  · intro h
    have h2 := congrFun h 2
    simp [ankleSigns, ankleDefaultSigns] at h2
    norm_num at h2

/-- C3 amended: side-dependent sign selection, as the code does it — Shoulder
replaces its default sign vector iff side = "R"; Elbow replaces it iff side
is "R" or "L" (with (-1,1,1) for "R" and (1,1,-1) for "L"); Wrist replaces it
iff side equals the batter's hand; Hip, Knee and Ankle replace it iff side =
"L". -/
theorem c3_sign_selection_amended (side : Option String) (bh : String) :
    (shoulderSigns side ≠ shoulderDefaultSigns ↔ side = some "R")
  ∧ (elbowSigns side ≠ elbowDefaultSigns ↔ (side = some "R" ∨ side = some "L"))
  ∧ elbowSigns (some "R") = ![-1, 1, 1]
  ∧ elbowSigns (some "L") = ![1, 1, -1]
  ∧ (wristSigns side bh ≠ wristDefaultSigns ↔ side = some bh)
  ∧ (hipSigns side ≠ hipDefaultSigns ↔ side = some "L")
  ∧ (kneeSigns side ≠ kneeDefaultSigns ↔ side = some "L")
  ∧ (ankleSigns side ≠ ankleDefaultSigns ↔ side = some "L") := by
  have neq01 : (![(-1 : ℝ), 1, -1]) ≠ ![1, 1, 1] := by
    intro h; have := congrFun h 0; norm_num at this
  have ne_r : (![(-1 : ℝ), 1, 1]) ≠ ![1, 1, 1] := by
    intro h; have := congrFun h 0; norm_num at this
  have ne_l : (![(1 : ℝ), 1, -1]) ≠ ![1, 1, 1] := by
    intro h; have := congrFun h 2; norm_num at this
  have ne_w : (![(-1 : ℝ), -1, 1]) ≠ ![1, -1, 1] := by
    intro h; have := congrFun h 0; norm_num at this
  have ne_h : (![(1 : ℝ), 1, -1]) ≠ ![-1, 1, 1] := by
    intro h; have := congrFun h 0; norm_num at this
  have ne_k : (![(-1 : ℝ), 1, 1]) ≠ ![1, 1, 1] := by
    intro h; have := congrFun h 0; norm_num at this
  have ne_a : (![(1 : ℝ), 1, 1]) ≠ ![1, 1, -1] := by
    intro h; have := congrFun h 2; norm_num at this
  refine ⟨?_, ?_, ?_, ?_, ?_, ?_, ?_, ?_⟩
  · unfold shoulderSigns shoulderDefaultSigns
    by_cases h : side = some "R" <;> simp [h, neq01]
  · unfold elbowSigns elbowDefaultSigns
    by_cases hr : side = some "R"
    · simp [hr, ne_r]
    · by_cases hl : side = some "L" <;> simp [hr, hl, ne_l]
  · simp [elbowSigns]
  · simp [elbowSigns]
  · unfold wristSigns wristDefaultSigns
    by_cases h : side = some bh <;> simp [h, ne_w]
  · unfold hipSigns hipDefaultSigns
    by_cases h : side = some "L" <;> simp [h, ne_h]
  · unfold kneeSigns kneeDefaultSigns
    by_cases h : side = some "L" <;> simp [h, ne_k]
  · unfold ankleSigns ankleDefaultSigns
    by_cases h : side = some "L" <;> simp [h, ne_a]

/-- C4: the Elbow post-correction on axis index 2 is exactly the unwrap rule —
applied to the angle after sign and adjustment, a value strictly above 340
has exactly 360 subtracted (so values in (340, 360) land in (-20, 0)), a
value at most 340 (such as 339) is unchanged, and axis 0 is untouched by the
rule (axis 1 is overwritten by the separate forced-zero rule, not by the
unwrap). -/
theorem c4_elbow_unwrap {n : ℕ} (decomp : AngleDecomp) (frames : FramesMap n)
    (j : Joint) (t : Fin n) (v : ℝ) :
    elbowAngles decomp j frames t 2
      = (baseAngles decomp j frames (elbowSigns j.side) elbowAdjustments t 2).map elbowUnwrap
  ∧ (340 < v → elbowUnwrap v = v - 360)
  ∧ (340 < v → v < 360 → -20 < elbowUnwrap v ∧ elbowUnwrap v < 0)
  ∧ (v ≤ 340 → elbowUnwrap v = v)
  ∧ elbowUnwrap 339 = 339
  ∧ elbowAngles decomp j frames t 0
      = baseAngles decomp j frames (elbowSigns j.side) elbowAdjustments t 0 := by
  refine ⟨by simp [elbowAngles], ?_, ?_, ?_, ?_, by simp [elbowAngles]⟩
  · intro h; simp [elbowUnwrap, h]
  · intro h1 h2
    constructor <;> simp [elbowUnwrap, h1] <;> linarith
  · intro h
    have hnot : ¬ (340 : ℝ) < v := not_lt.mpr h
    simp [elbowUnwrap, hnot]
  · norm_num [elbowUnwrap]

/-- C4 witness: at 355 the unwrap yields -5, at 339 it leaves the value
unchanged, on a concrete elbow angle computation. -/
theorem c4_elbow_unwrap_witness :
    (340 : ℝ) < 355 ∧ elbowUnwrap 355 = 355 - 360
  ∧ (355 : ℝ) < 360 ∧ (-20 : ℝ) < elbowUnwrap 355 ∧ elbowUnwrap 355 < 0
  ∧ (339 : ℝ) ≤ 340 ∧ elbowUnwrap 339 = 339 := by
  have h := c4_elbow_unwrap (n := 1) (fun _ _ _ => 0) (fun _ => none)
    elbow_joint_right 0 355
  have h2 := c4_elbow_unwrap (n := 1) (fun _ _ _ => 0) (fun _ => none)
    elbow_joint_right 0 339
  exact ⟨by norm_num, h.2.1 (by norm_num), by norm_num,
    (h.2.2.1 (by norm_num) (by norm_num)).1, (h.2.2.1 (by norm_num) (by norm_num)).2,
    by norm_num, h2.2.2.2.1 (by norm_num)⟩

/-- C7: the per-sample relative-orientation operation used by
`Joint.transforms` returns the pose whose rotation is the transpose of the
proximal (reference) rotation times the distal (global) rotation, with the
distal origin expressed relative to the proximal frame as translation. -/
theorem c7_relative_orientation (d p : Pose) :
    (get_local_coordinates d p).rot = p.rot.transpose * d.rot
  ∧ (get_local_coordinates d p).trans = p.rot.transpose *ᵥ (d.trans - p.trans) := by
  refine ⟨rfl, ?_⟩
  show p.rot.transpose *ᵥ d.trans + -(p.rot.transpose *ᵥ p.trans) = _
  rw [Matrix.mulVec_sub, sub_eq_add_neg]

lemma dotProduct_self_nonneg (v : V3R) : 0 ≤ v ⬝ᵥ v :=
  Finset.sum_nonneg fun _ _ => mul_self_nonneg _

lemma unitize_dot_self {v : V3R} (hv : v ≠ 0) : unitize v ⬝ᵥ unitize v = 1 := by
  have hnn : 0 ≤ v ⬝ᵥ v := dotProduct_self_nonneg v
  have hne : v ⬝ᵥ v ≠ 0 := fun h => hv (Matrix.dotProduct_self_eq_zero.mp h)
  unfold unitize
  rw [smul_dotProduct, dotProduct_smul, smul_eq_mul, smul_eq_mul, ← mul_assoc,
    ← mul_inv, Real.mul_self_sqrt hnn]
  exact inv_mul_cancel₀ hne

lemma unitize_dot_left_zero {u z : V3R} (h : u ⬝ᵥ z = 0) : unitize u ⬝ᵥ z = 0 := by
  unfold unitize
  rw [smul_dotProduct, h, smul_zero]

lemma unitize_dot_right_zero {u z : V3R} (h : z ⬝ᵥ u = 0) : z ⬝ᵥ unitize u = 0 := by
  unfold unitize
  rw [dotProduct_smul, h, smul_zero]

/-- Exact right-handed orthonormality of the columns of a rotation matrix:
unit columns, pairwise orthogonal, and the third column is the cross product
of the first two. -/
def orthonormalRH (M : Matrix (Fin 3) (Fin 3) ℝ) : Prop :=
  (∀ a : Fin 3, col M a ⬝ᵥ col M a = 1)
  ∧ (∀ a b : Fin 3, a ≠ b → col M a ⬝ᵥ col M b = 0)
  ∧ col M 0 ×₃ col M 1 = col M 2

lemma orthonormalRH_of_unit_orth {x y : V3R} (hx : x ⬝ᵥ x = 1)
    (hy : y ⬝ᵥ y = 1) (hxy : x ⬝ᵥ y = 0) :
    orthonormalRH (colMatrix x y (x ×₃ y)) := by
  have hyx : y ⬝ᵥ x = 0 := by rw [dotProduct_comm]; exact hxy
  have hzz : (x ×₃ y) ⬝ᵥ (x ×₃ y) = 1 := by
    rw [cross_dot_cross, hx, hy, hxy, hyx]; ring
  have hxz : x ⬝ᵥ (x ×₃ y) = 0 := dot_self_cross x y
  have hyz : y ⬝ᵥ (x ×₃ y) = 0 := dot_cross_self x y
  have hzx : (x ×₃ y) ⬝ᵥ x = 0 := by rw [dotProduct_comm]; exact hxz
  have hzy : (x ×₃ y) ⬝ᵥ y = 0 := by rw [dotProduct_comm]; exact hyz
  refine ⟨?_, ?_, rfl⟩
  · intro a
    fin_cases a
    · exact hx
    · exact hy
    · exact hzz
  · intro a b hab
    fin_cases a <;> fin_cases b <;>
      first
        | exact absurd rfl hab
        | exact hxy
        | exact hxz
        | exact hyx
        | exact hyz
        | exact hzx
        | exact hzy

lemma opt3_eq_some {α β γ δ : Type} {f : α → β → γ → δ} {a : Option α}
    {b : Option β} {c : Option γ} {d : δ} (h : opt3 f a b c = some d) :
    ∃ x y z, a = some x ∧ b = some y ∧ c = some z ∧ d = f x y z := by
  cases a <;> cases b <;> cases c <;> simp [opt3] at h
  exact ⟨_, _, _, rfl, rfl, rfl, h.symm⟩

/-- C8 counterexample: a validly configured Part on a sample whose input
markers are all defined — but geometrically degenerate (coincident markers) —
produces a frame whose middle column has squared length 0, not 1; so
orthonormality does not follow from "validly configured and all markers
defined" alone. -/
theorem c8_counterexample :
    ts_deg.data "A" 0 = some (fun _ => 0)
  ∧ ts_deg.data "B" 0 = some (fun _ => 0)
  ∧ ts_deg.data "C" 0 = some (fun _ => 0)
  ∧ Option.map (fun pose => col pose.rot 1 ⬝ᵥ col pose.rot 1)
      (part_deg.create_axis_frames ts_deg 0) = some 0
  ∧ (0 : ℝ) ≠ 1 := by
  refine ⟨rfl, rfl, rfl, ?_, by norm_num⟩
  have hv : ((fun _ => (0:ℝ)) - fun _ => (0:ℝ) : V3R) = 0 := by
    funext i; simp
  have hy : unitize ((fun _ => (0:ℝ)) - fun _ => (0:ℝ)) ⬝ᵥ
      unitize ((fun _ => (0:ℝ)) - fun _ => (0:ℝ)) = (0:ℝ) := by
    rw [hv]
    unfold unitize
    simp
  simp only [part_deg, Part.create_axis_frames, ts_deg, subtract_series, opt3,
    Option.map_some]
  exact congrArg some hy

/-- C8 amended: for nondegenerate inputs — primary direction vector nonzero
and auxiliary vector not parallel to it (equivalently, the relevant cross
product nonzero) — both Segment Frame Builder constructions produce exactly
orthonormal, right-handed axis columns (hence within any tolerance,
including 1e-6); and every frame the builder ever returns is one of these
two constructions. -/
theorem c8_orthonormal_frames_amended (o v w o2 v2 w2 : V3R)
    (h1 : v ≠ 0) (h2 : unitize v ×₃ w ≠ 0)
    (h3 : v2 ≠ 0) (h4 : w2 ×₃ unitize v2 ≠ 0) :
    orthonormalRH (mkFrameY o v w).rot
  ∧ orthonormalRH (mkFrameX o2 v2 w2).rot
  ∧ (∀ {n : ℕ} (p : Part) (ts : TimeSeries n V3R) (t : Fin n) (pose : Pose),
      p.create_axis_frames ts t = some pose →
      ∃ a b c, pose = mkFrameY a b c ∨ pose = mkFrameX a b c) := by
  refine ⟨?_, ?_, ?_⟩
  · have hy : unitize v ⬝ᵥ unitize v = 1 := unitize_dot_self h1
    have hx : unitize (unitize v ×₃ w) ⬝ᵥ unitize (unitize v ×₃ w) = 1 :=
      unitize_dot_self h2
    have hxy : unitize (unitize v ×₃ w) ⬝ᵥ unitize v = 0 := by
      refine unitize_dot_left_zero ?_
      rw [dotProduct_comm]
      exact dot_self_cross _ _
    exact orthonormalRH_of_unit_orth hx hy hxy
  · have hx : unitize v2 ⬝ᵥ unitize v2 = 1 := unitize_dot_self h3
    have hy : unitize (w2 ×₃ unitize v2) ⬝ᵥ unitize (w2 ×₃ unitize v2) = 1 :=
      unitize_dot_self h4
    have hxy : unitize v2 ⬝ᵥ unitize (w2 ×₃ unitize v2) = 0 :=
      unitize_dot_right_zero (dot_cross_self _ _)
    exact orthonormalRH_of_unit_orth hx hy hxy
  · intro n p ts t pose hp
    unfold Part.create_axis_frames at hp
    rcases hyd : p.y_direction with _ | yd <;>
      rcases hyzd : p.yz_direction with _ | yzd <;>
      rw [hyd, hyzd] at hp
    case none.none | some.none | none.some =>
      rcases hxd : p.x_direction with _ | xd <;>
        rcases hxzd : p.xz_direction with _ | xzd <;>
        rw [hxd, hxzd] at hp <;>
        simp only [] at hp
      case none.none | some.none | none.some => exact absurd hp (by simp)
      case some.some =>
        obtain ⟨a, b, c, _, _, _, hd⟩ := opt3_eq_some hp
        exact ⟨a, b, c, Or.inr hd⟩
    case some.some =>
      obtain ⟨a, b, c, _, _, _, hd⟩ := opt3_eq_some hp
      exact ⟨a, b, c, Or.inl hd⟩

/-- C8 witness: the nondegeneracy hypotheses hold at the spec's concrete
scenario (primary Y from (0,1,0), auxiliary (1,1,0)) and at a concrete
X-primary configuration, and the amended orthonormality conclusions follow
there. -/
theorem c8_orthonormal_frames_witness :
    (![0, 1, 0] : V3R) ≠ 0
  ∧ unitize ![0, 1, 0] ×₃ ![1, 1, 0] ≠ 0
  ∧ (![1, 0, 0] : V3R) ≠ 0
  ∧ (![0, 0, 1] : V3R) ×₃ unitize ![1, 0, 0] ≠ 0
  ∧ orthonormalRH (mkFrameY 0 ![0, 1, 0] ![1, 1, 0]).rot
  ∧ orthonormalRH (mkFrameX 0 ![1, 0, 0] ![0, 0, 1]).rot := by
  have hu1 : unitize ![0, 1, 0] = ![0, 1, 0] := by
    unfold unitize
    norm_num [dotProduct, Fin.sum_univ_three]
  have hu2 : unitize ![1, 0, 0] = ![1, 0, 0] := by
    unfold unitize
    norm_num [dotProduct, Fin.sum_univ_three]
  have h1 : (![0, 1, 0] : V3R) ≠ 0 := by
    intro h; have := congrFun h 1; norm_num at this
  have h2 : unitize ![0, 1, 0] ×₃ ![1, 1, 0] ≠ 0 := by
    rw [hu1]
    intro h
    have := congrFun h 2
    simp [cross_apply] at this
  have h3 : (![1, 0, 0] : V3R) ≠ 0 := by
    intro h; have := congrFun h 0; norm_num at this
  have h4 : (![0, 0, 1] : V3R) ×₃ unitize ![1, 0, 0] ≠ 0 := by
    rw [hu2]
    intro h
    have := congrFun h 1
    simp [cross_apply] at this
  have main := c8_orthonormal_frames_amended 0 ![0, 1, 0] ![1, 1, 0]
    0 ![1, 0, 0] ![0, 0, 1] h1 h2 h3 h4
  exact ⟨h1, h2, h3, h4, main.1, main.2.1⟩

lemma opt3_none_first {α β γ δ : Type} (f : α → β → γ → δ) (b : Option β)
    (c : Option γ) : opt3 f none b c = none := by
  cases b <;> cases c <;> rfl

lemma opt3_none_second {α β γ δ : Type} (f : α → β → γ → δ) (a : Option α)
    (c : Option γ) : opt3 f a none c = none := by
  cases a <;> cases c <;> rfl

lemma opt3_none_third {α β γ δ : Type} (f : α → β → γ → δ) (a : Option α)
    (b : Option β) : opt3 f a b none = none := by
  cases a <;> cases b <;> rfl

lemma subtract_series_none_left {n : ℕ} {K : Type} [Field K] {a : String}
    (b : String) {ts : TimeSeries n (V3 K)} {t : Fin n}
    (h : ts.data a t = none) : subtract_series a b ts t = none := by
  unfold subtract_series
  rw [h]

lemma subtract_series_none_right {n : ℕ} {K : Type} [Field K] (a : String)
    {b : String} {ts : TimeSeries n (V3 K)} {t : Fin n}
    (h : ts.data b t = none) : subtract_series a b ts t = none := by
  unfold subtract_series
  rw [h]
  cases ts.data a t <;> rfl

lemma create_axis_frames_none {n : ℕ} (p : Part) (ts : TimeSeries n V3R)
    (t : Fin n) (m : String) (hmem : m ∈ partMarkers p)
    (hm : ts.data m t = none) : p.create_axis_frames ts t = none := by
  obtain ⟨nm, org, yD, yzD, xD, xzD⟩ := p
  rcases yD with _ | yd <;> rcases yzD with _ | yzd <;>
    rcases xD with _ | xd <;> rcases xzD with _ | xzd <;>
    first
      | rfl
      | (simp only [Part.create_axis_frames]
         simp only [partMarkers, List.mem_cons, List.not_mem_nil, or_false] at hmem
         rcases hmem with rfl | rfl | rfl | rfl | rfl <;>
           first
             | (rw [hm]; exact opt3_none_first _ _ _)
             | (rw [subtract_series_none_left _ hm]; exact opt3_none_second _ _ _)
             | (rw [subtract_series_none_right _ hm]; exact opt3_none_second _ _ _)
             | (rw [subtract_series_none_left _ hm]; exact opt3_none_third _ _ _)
             | (rw [subtract_series_none_right _ hm]; exact opt3_none_third _ _ _))

lemma framesOf_parts_eq {n : ℕ} (ts : TimeSeries n V3R) (p : Part)
    (hp : p ∈ parts) :
    framesOf parts ts p.axis_frames_name = some (p.create_axis_frames ts) := by
  fin_cases hp <;> rfl

lemma joint_parts_mem (j : Joint) (hj : j ∈ joints) :
    j.proximal ∈ parts ∧ j.distal ∈ parts := by
  fin_cases hj <;> exact ⟨by decide, by decide⟩

lemma transforms_none_prox {n : ℕ} (j : Joint) (frames : FramesMap n)
    (t : Fin n) (pf : Fin n → Option Pose)
    (hpf : frames j.proximal.axis_frames_name = some pf) (hnone : pf t = none) :
    j.transforms frames t = none := by
  unfold Joint.transforms
  rw [hpf]
  cases hdf : frames j.distal.axis_frames_name with
  | none => rfl
  | some df =>
    simp only [map2Opt, Option.join, hnone]
    cases df t <;> rfl

lemma transforms_none_dist {n : ℕ} (j : Joint) (frames : FramesMap n)
    (t : Fin n) (df : Fin n → Option Pose)
    (hdf : frames j.distal.axis_frames_name = some df) (hnone : df t = none) :
    j.transforms frames t = none := by
  unfold Joint.transforms
  rw [hdf]
  cases hpf : frames j.proximal.axis_frames_name with
  | none => rfl
  | some pf =>
    simp only [map2Opt, Option.join, hnone]
    cases pf t <;> rfl

lemma jointAngles_of_transforms_none {n : ℕ} (decomp : AngleDecomp)
    (bh : String) (frames : FramesMap n) (j : Joint) (t : Fin n)
    (h : j.transforms frames t = none) (i : Fin 3) :
    jointAngles decomp bh frames j t i
      = if forcedZeroAxis j.kind i then some 0 else none := by
  unfold jointAngles
  cases hk : j.kind <;>
    fin_cases i <;>
    simp [hk, shoulderAngles, elbowAngles, wristAngles, hipAngles, kneeAngles,
      ankleAngles, baseAngles, h, forcedZeroAxis]

lemma subtract_series_congr {n : ℕ} {K : Type} [Field K]
    {ts ts2 : TimeSeries n (V3 K)} (a b : String) (t : Fin n)
    (ha : ts.data a t = ts2.data a t) (hb : ts.data b t = ts2.data b t) :
    subtract_series a b ts t = subtract_series a b ts2 t := by
  unfold subtract_series
  rw [ha, hb]

lemma create_axis_frames_congr {n : ℕ} (p : Part) {ts ts2 : TimeSeries n V3R}
    (t : Fin n) (h : ∀ s ∈ partMarkers p, ts.data s t = ts2.data s t) :
    p.create_axis_frames ts t = p.create_axis_frames ts2 t := by
  obtain ⟨nm, org, yD, yzD, xD, xzD⟩ := p
  rcases yD with _ | yd <;> rcases yzD with _ | yzd <;>
    rcases xD with _ | xd <;> rcases xzD with _ | xzd <;>
    first
      | rfl
      | (simp only [Part.create_axis_frames]
         rw [h org (by simp [partMarkers]),
           subtract_series_congr yd.1 yd.2 t (h yd.1 (by simp [partMarkers]))
             (h yd.2 (by simp [partMarkers])),
           subtract_series_congr yzd.1 yzd.2 t (h yzd.1 (by simp [partMarkers]))
             (h yzd.2 (by simp [partMarkers]))])
      | (simp only [Part.create_axis_frames]
         rw [h org (by simp [partMarkers]),
           subtract_series_congr xd.1 xd.2 t (h xd.1 (by simp [partMarkers]))
             (h xd.2 (by simp [partMarkers])),
           subtract_series_congr xzd.1 xzd.2 t (h xzd.1 (by simp [partMarkers]))
             (h xzd.2 (by simp [partMarkers]))])

lemma transforms_congr {n : ℕ} (j : Joint) {ts ts2 : TimeSeries n V3R}
    (t : Fin n) (hprox : j.proximal ∈ parts) (hdist : j.distal ∈ parts)
    (hp : j.proximal.create_axis_frames ts t = j.proximal.create_axis_frames ts2 t)
    (hd : j.distal.create_axis_frames ts t = j.distal.create_axis_frames ts2 t) :
    j.transforms (framesOf parts ts) t = j.transforms (framesOf parts ts2) t := by
  unfold Joint.transforms
  rw [framesOf_parts_eq ts j.distal hdist, framesOf_parts_eq ts2 j.distal hdist,
    framesOf_parts_eq ts j.proximal hprox, framesOf_parts_eq ts2 j.proximal hprox]
  simp only [map2Opt, Option.join, hp, hd]

lemma jointAngles_congr {n : ℕ} (decomp : AngleDecomp) (bh : String)
    (j : Joint) {F F2 : FramesMap n} (t : Fin n)
    (h : j.transforms F t = j.transforms F2 t) (i : Fin 3) :
    jointAngles decomp bh F j t i = jointAngles decomp bh F2 j t i := by
  unfold jointAngles
  cases hk : j.kind <;>
    simp only [hk, shoulderAngles, elbowAngles, wristAngles, hipAngles,
      kneeAngles, ankleAngles, baseAngles, h]

/-- C1 counterexample: with marker "RSHO" undefined at sample 0, the
right-elbow joint (whose proximal segment is built from "RSHO") still
produces the defined value 0 — not an undefined value — on its forced-zero
axis (index 1) at that sample, because the numpy column assignment
`angles[:, 1] = 0` overwrites NaN rows too.  So the claim that every axis of
every affected joint is undefined at the sample is false. -/
theorem c1_counterexample :
    ts0.data "RSHO" 0 = none
  ∧ jointAngles decomp0 "R" (framesOf parts ts0) elbow_joint_right 0 1 = some 0
  ∧ some (0 : ℝ) ≠ (none : Option ℝ) := by
  refine ⟨by simp [ts0], ?_, by simp⟩
  simp [jointAngles, elbow_joint_right, elbowAngles]

/-- C1 amended: if a marker is undefined at sample `t` then every catalog
segment frame reading that marker is undefined at `t`; every catalog joint
whose proximal or distal segment reads that marker is undefined at `t` on
every axis EXCEPT its forced-zero axes (Elbow axis 1, Knee axes 1 and 2,
Wrist axis 2), which are exactly 0 there (overwritten, not propagated); and
all other samples, and all catalog joints not reading the marker, are
unaffected (they depend only on the unchanged data). -/
theorem c1_undefined_propagation {n : ℕ} (decomp : AngleDecomp) (bh m : String)
    (ts ts2 : TimeSeries n V3R) (t : Fin n)
    (hm : ts.data m t = none)
    (hagree : ∀ s u, ¬(s = m ∧ u = t) → ts.data s u = ts2.data s u) :
    (∀ p : Part, m ∈ partMarkers p → p.create_axis_frames ts t = none)
  ∧ (∀ j ∈ joints, (m ∈ partMarkers j.proximal ∨ m ∈ partMarkers j.distal) →
      ∀ i, jointAngles decomp bh (framesOf parts ts) j t i
            = if forcedZeroAxis j.kind i then some 0 else none)
  ∧ (∀ j ∈ joints, ∀ u, u ≠ t → ∀ i,
      jointAngles decomp bh (framesOf parts ts) j u i
        = jointAngles decomp bh (framesOf parts ts2) j u i)
  ∧ (∀ j ∈ joints, m ∉ partMarkers j.proximal → m ∉ partMarkers j.distal →
      ∀ u i, jointAngles decomp bh (framesOf parts ts) j u i
        = jointAngles decomp bh (framesOf parts ts2) j u i) := by
  have hA : ∀ p : Part, m ∈ partMarkers p → p.create_axis_frames ts t = none :=
    fun p hp => create_axis_frames_none p ts t m hp hm
  refine ⟨hA, ?_, ?_, ?_⟩
  · intro j hj hside i
    obtain ⟨hprox, hdist⟩ := joint_parts_mem j hj
    have htr : j.transforms (framesOf parts ts) t = none := by
      rcases hside with hmem | hmem
      · exact transforms_none_prox j _ t _ (framesOf_parts_eq ts j.proximal hprox)
          (hA _ hmem)
      · exact transforms_none_dist j _ t _ (framesOf_parts_eq ts j.distal hdist)
          (hA _ hmem)
    exact jointAngles_of_transforms_none decomp bh _ j t htr i
  · intro j hj u hu i
    obtain ⟨hprox, hdist⟩ := joint_parts_mem j hj
    have hall : ∀ s, ts.data s u = ts2.data s u :=
      fun s => hagree s u (fun hc => hu hc.2)
    exact jointAngles_congr decomp bh j u
      (transforms_congr j u hprox hdist
        (create_axis_frames_congr _ u (fun s _ => hall s))
        (create_axis_frames_congr _ u (fun s _ => hall s))) i
  · intro j hj hnp hnd u i
    obtain ⟨hprox, hdist⟩ := joint_parts_mem j hj
    have hp2 : ∀ s ∈ partMarkers j.proximal, ts.data s u = ts2.data s u := by
      intro s hs
      refine hagree s u ?_
      rintro ⟨rfl, _⟩
      exact hnp hs
    have hd2 : ∀ s ∈ partMarkers j.distal, ts.data s u = ts2.data s u := by
      intro s hs
      refine hagree s u ?_
      rintro ⟨rfl, _⟩
      exact hnd hs
    exact jointAngles_congr decomp bh j u
      (transforms_congr j u hprox hdist
        (create_axis_frames_congr _ u hp2)
        (create_axis_frames_congr _ u hd2)) i

/-- C1 witness: the amended theorem applied to the concrete scenario in which
"RSHO" is undefined at sample 0 — the right elbow's axis 0 (not forced to
zero) is then undefined at sample 0. -/
theorem c1_undefined_propagation_witness :
    ts0.data "RSHO" 0 = none
  ∧ jointAngles decomp0 "R" (framesOf parts ts0) elbow_joint_right 0 0 = none := by
  refine ⟨by simp [ts0], ?_⟩
  have h := (c1_undefined_propagation decomp0 "R" "RSHO" ts0 ts0 0
      (by simp [ts0]) (fun _ _ _ => rfl)).2.1 elbow_joint_right
      (by simp [joints]) (Or.inl (by simp [elbow_joint_right, upper_arm_right, partMarkers]))
      0
  simpa [elbow_joint_right, forcedZeroAxis] using h

lemma optionList_map_some {α β : Type} (l : List α) (f : α → β) :
    optionList (l.map (fun a => some (f a))) = some (l.map f) := by
  induction l with
  | nil => rfl
  | cons a r ih => simp [optionList, ih]

lemma meanSeries_eq {n : ℕ} {K : Type} [Field K] (preds : List String)
    (m : TimeSeries n (V3 K)) (t : Fin n) (vals : String → V3 K)
    (hne : preds ≠ [])
    (hv : ∀ q ∈ preds, m.data q t = some (vals q)) :
    meanSeries (preds.map (fun q => m.data q)) t
      = some (fun i => ((preds.map (fun q => vals q i)).sum) / preds.length) := by
  cases preds with
  | nil => exact absurd rfl hne
  | cons a r =>
    unfold meanSeries
    have hmap : (((a :: r).map (fun q => m.data q)).map (fun f => f t)
          : List (Option (V3 K)))
        = (a :: r).map (fun q => some (vals q)) := by
      rw [List.map_map]
      exact List.map_congr_left (fun q hq => hv q hq)
    rw [hmap, optionList_map_some]
    simp only [List.map_cons, List.isEmpty_cons, Bool.false_eq_true, if_false,
      Option.map_some']
    congr 1
    funext i
    simp [listMean, List.map_map, Function.comp_def]

lemma meanSeries_singleton {n : ℕ} {K : Type} [Field K]
    (f : Fin n → Option (V3 K)) (t : Fin n) : meanSeries [f] t = f t := by
  unfold meanSeries
  simp only [List.isEmpty_cons, Bool.false_eq_true, if_false, List.map_cons,
    List.map_nil]
  cases hf : f t with
  | none => simp [optionList]
  | some x =>
    rw [show optionList [some x] = some [x] from rfl, Option.map_some']
    congr 1
    funext i
    simp [listMean]

lemma renameData_self_data {n : ℕ} {α : Type} (m : TimeSeries n α) (p : String)
    (s : String) (t : Fin n) : (renameData m p p).data s t = m.data s t := by
  unfold renameData
  by_cases h : s = p <;> simp [h]

lemma renameData_self_keys {n : ℕ} {α : Type} (m : TimeSeries n α) (p : String)
    (hp : p ∈ m.keys) (s : String) :
    s ∈ (renameData m p p).keys ↔ s ∈ m.keys := by
  unfold renameData
  by_cases h : s = p
  · subst h
    simp [hp]
  · simp [List.mem_append, List.mem_erase_of_ne h, h]

lemma addData_keys_mem {n : ℕ} {α : Type} (m : TimeSeries n α) (p : String)
    (vals : Fin n → Option α) (s : String) :
    s ∈ (addData m p vals).keys ↔ (s ∈ m.keys ∨ s = p) := by
  unfold addData
  by_cases h : p ∈ m.keys
  · simp only [if_pos h]
    constructor
    · exact Or.inl
    · rintro (hs | rfl)
      · exact hs
      · exact h
  · simp [if_neg h, List.mem_append]

lemma addCustomStep_keys {n : ℕ} {K : Type} [Field K] {g : MarkerGraph}
    {m m2 : TimeSeries n (V3 K)} {p : String}
    (h : addCustomStep g m p = .ok m2) (s : String) :
    s ∈ m2.keys ↔ (s ∈ m.keys ∨ s = p) := by
  unfold addCustomStep at h
  by_cases hp : p ∈ m.keys
  · rw [if_pos hp] at h
    injection h with h
    subst h
    rw [renameData_self_keys m p hp s]
    constructor
    · exact Or.inl
    · rintro (hs | rfl)
      · exact hs
      · exact hp
  · rw [if_neg hp] at h
    cases hfind : (predecessors g p).find? (fun q => decide (q ∉ m.keys)) with
    | some q => rw [hfind] at h; cases h
    | none =>
      rw [hfind] at h
      injection h with h
      subst h
      exact addData_keys_mem m p _ s

lemma addCustomStep_derive {n : ℕ} {K : Type} [Field K] (g : MarkerGraph)
    (m : TimeSeries n (V3 K)) (p : String) (hp : p ∉ m.keys)
    (hpreds : ∀ q ∈ predecessors g p, q ∈ m.keys) :
    addCustomStep g m p
      = .ok (addData m p (meanSeries ((predecessors g p).map (fun q => m.data q)))) := by
  unfold addCustomStep
  rw [if_neg hp]
  have hfind : (predecessors g p).find? (fun q => decide (q ∉ m.keys)) = none := by
    rw [List.find?_eq_none]
    intro q hq
    simp [hpreds q hq]
  rw [hfind]

lemma add_custom_markers_keys {n : ℕ} {K : Type} [Field K] (g : MarkerGraph) :
    ∀ (names : List String) (m m1 : TimeSeries n (V3 K)),
    add_custom_markers g m names = .ok m1 →
    ∀ s, (s ∈ m.keys ∨ s ∈ names) → s ∈ m1.keys := by
  intro names
  induction names with
  | nil =>
    intro m m1 h s hs
    injection h with h
    subst h
    rcases hs with hs | hs
    · exact hs
    · cases hs
  | cons p rest ih =>
    intro m m1 h s hs
    rw [show add_custom_markers g m (p :: rest)
        = match addCustomStep g m p with
          | .error e => .error e
          | .ok m2 => add_custom_markers g m2 rest from rfl] at h
    cases hstep : addCustomStep g m p with
    | error e => rw [hstep] at h; cases h
    | ok m2 =>
      rw [hstep] at h
      refine ih m2 m1 h s ?_
      rcases hs with hs | hs
      · exact Or.inl ((addCustomStep_keys hstep s).mpr (Or.inl hs))
      · rcases List.mem_cons.mp hs with rfl | hs
        · exact Or.inl ((addCustomStep_keys hstep s).mpr (Or.inr rfl))
        · exact Or.inr hs

lemma add_custom_markers_passthrough {n : ℕ} {K : Type} [Field K]
    (g : MarkerGraph) :
    ∀ (names : List String) (m : TimeSeries n (V3 K)),
    (∀ p ∈ names, p ∈ m.keys) →
    ∃ m2, add_custom_markers g m names = .ok m2
      ∧ (∀ s t, m2.data s t = m.data s t)
      ∧ (∀ s, s ∈ m2.keys ↔ s ∈ m.keys) := by
  intro names
  induction names with
  | nil =>
    intro m _
    exact ⟨m, rfl, fun _ _ => rfl, fun _ => Iff.rfl⟩
  | cons p rest ih =>
    intro m hall
    have hp : p ∈ m.keys := hall p (List.mem_cons_self p rest)
    have hstep : addCustomStep g m p = .ok (renameData m p p) := by
      unfold addCustomStep
      rw [if_pos hp]
    have hrest : ∀ q ∈ rest, q ∈ (renameData m p p).keys := by
      intro q hq
      rw [renameData_self_keys m p hp q]
      exact hall q (List.mem_cons_of_mem p hq)
    obtain ⟨m2, hrun, hdata, hkeys⟩ := ih (renameData m p p) hrest
    refine ⟨m2, ?_, ?_, ?_⟩
    · rw [show add_custom_markers g m (p :: rest)
          = match addCustomStep g m p with
            | .error e => .error e
            | .ok mm => add_custom_markers g mm rest from rfl, hstep]
      exact hrun
    · intro s t
      rw [hdata s t, renameData_self_data]
    · intro s
      rw [hkeys s, renameData_self_keys m p hp s]

/-- C6: when a derived node is not already present and one of its direct
predecessors is missing from the data dictionary, the synthesizer run aborts
immediately with an error carrying that predecessor's name (the first such
predecessor, matching the order of the failing dict lookup); no partial
result is produced. -/
theorem c6_missing_predecessor_error {n : ℕ} {K : Type} [Field K]
    (g : MarkerGraph) (m : TimeSeries n (V3 K)) (p q : String)
    (rest : List String) (hp : p ∉ m.keys)
    (hq : (predecessors g p).find? (fun r => decide (r ∉ m.keys)) = some q) :
    add_custom_markers g m (p :: rest) = Except.error q
  ∧ q ∈ predecessors g p ∧ q ∉ m.keys := by
  have hstep : addCustomStep g m p = .error q := by
    unfold addCustomStep
    rw [if_neg hp, hq]
  refine ⟨?_, List.mem_of_find?_eq_some hq, ?_⟩
  · rw [show add_custom_markers g m (p :: rest)
        = match addCustomStep g m p with
          | .error e => .error e
          | .ok mm => add_custom_markers g mm rest from rfl, hstep]
  · have := List.find?_some hq
    simpa using this

/-- C6 witness: synthesizing "wrist_l" over an input that lacks its
predecessor "LWRA" aborts with the error naming "LWRA". -/
theorem c6_missing_predecessor_error_witness :
    (("wrist_l" : String) ∉ m6.keys)
  ∧ (predecessors g6 "wrist_l").find? (fun r => decide (r ∉ m6.keys)) = some "LWRA"
  ∧ add_custom_markers g6 m6 ["wrist_l"] = Except.error "LWRA"
  ∧ "LWRA" ∈ predecessors g6 "wrist_l" ∧ ("LWRA" : String) ∉ m6.keys := by
  have h1 : ("wrist_l" : String) ∉ m6.keys := by decide
  have h2 : (predecessors g6 "wrist_l").find? (fun r => decide (r ∉ m6.keys))
      = some "LWRA" := by decide
  obtain ⟨ha, hb, hc⟩ := c6_missing_predecessor_error g6 m6 "wrist_l" "LWRA" [] h1 h2
  exact ⟨h1, h2, ha, hb, hc⟩

/-- C9: running the synthesizer a second time on the output of a successful
run changes no channel values — every derived node is then present, so only
the pass-through branch fires. -/
theorem c9_idempotent {n : ℕ} {K : Type} [Field K] (g : MarkerGraph)
    (names : List String) (m m1 : TimeSeries n (V3 K))
    (h : add_custom_markers g m names = .ok m1) :
    ∃ m2, add_custom_markers g m1 names = .ok m2
      ∧ ∀ s t, m2.data s t = m1.data s t := by
  have hkeys : ∀ p ∈ names, p ∈ m1.keys :=
    fun p hp => add_custom_markers_keys g names m m1 h p (Or.inr hp)
  obtain ⟨m2, hrun, hdata, _⟩ := add_custom_markers_passthrough g names m1 hkeys
  exact ⟨m2, hrun, hdata⟩

/-- C9 witness: a concrete successful synthesis of "wrist_l", rerun on its
own output, keeps every channel value. -/
theorem c9_idempotent_witness :
    add_custom_markers gW mW ["wrist_l"] = Except.ok mW1
  ∧ ∃ m2, add_custom_markers gW mW1 ["wrist_l"] = Except.ok m2
      ∧ ∀ s t, m2.data s t = mW1.data s t := by
  have h : add_custom_markers gW mW ["wrist_l"] = Except.ok mW1 := rfl
  exact ⟨h, c9_idempotent gW ["wrist_l"] mW mW1 h⟩

/-- C5: the fixed derived-node list is processed in its given order, which is
a topological order of the dependency DAG (every edge between derived nodes
goes from earlier to later; in particular pelvis_m comes after hip_r and
hip_l); a node already present in the input passes through with its values
kept, and a node not present is derived at every sample as the arithmetic
mean of its direct predecessors' positions, other channels unchanged. -/
theorem c5_topological_synthesis {n : ℕ} {K : Type} [Field K]
    (g : MarkerGraph) (m : TimeSeries n (V3 K)) (p : String)
    (rest : List String) :
    (∀ e ∈ markerEdges, e.1 ∈ customNodes → e.2 ∈ customNodes →
       customNodes.indexOf e.1 < customNodes.indexOf e.2)
  ∧ customNodes.indexOf "hip_r" < customNodes.indexOf "pelvis_m"
  ∧ customNodes.indexOf "hip_l" < customNodes.indexOf "pelvis_m"
  ∧ (p ∈ m.keys →
      add_custom_markers g m (p :: rest) = add_custom_markers g (renameData m p p) rest
      ∧ ∀ s t, (renameData m p p).data s t = m.data s t)
  ∧ (p ∉ m.keys → (∀ q ∈ predecessors g p, q ∈ m.keys) →
      predecessors g p ≠ [] →
      ∃ m2, add_custom_markers g m (p :: rest) = add_custom_markers g m2 rest
        ∧ (∀ t (vals : String → V3 K),
            (∀ q ∈ predecessors g p, m.data q t = some (vals q)) →
            m2.data p t = some (fun i =>
              ((predecessors g p).map (fun q => vals q i)).sum / (predecessors g p).length))
        ∧ (∀ s, s ≠ p → ∀ t, m2.data s t = m.data s t)) := by
  refine ⟨by decide, by decide, by decide, ?_, ?_⟩
  · intro hp
    constructor
    · rw [show add_custom_markers g m (p :: rest)
          = match addCustomStep g m p with
            | .error e => .error e
            | .ok mm => add_custom_markers g mm rest from rfl,
        show addCustomStep g m p = .ok (renameData m p p) from by
          unfold addCustomStep; rw [if_pos hp]]
    · exact fun s t => renameData_self_data m p s t
  · intro hp hpreds hne
    refine ⟨addData m p (meanSeries ((predecessors g p).map (fun q => m.data q))),
      ?_, ?_, ?_⟩
    · rw [show add_custom_markers g m (p :: rest)
          = match addCustomStep g m p with
            | .error e => .error e
            | .ok mm => add_custom_markers g mm rest from rfl,
        addCustomStep_derive g m p hp hpreds]
    · intro t vals hv
      show (if p = p then meanSeries ((predecessors g p).map (fun q => m.data q)) else m.data p) t
        = _
      rw [if_pos rfl]
      exact meanSeries_eq (predecessors g p) m t vals hne hv
    · intro s hs t
      show (if s = p then meanSeries ((predecessors g p).map (fun q => m.data q)) else m.data s) t
        = m.data s t
      rw [if_neg hs]

/-- C5 witness: on a concrete input, an already-present marker passes through
with values kept, and the absent derived node "wrist_l" is synthesized as the
mean of its predecessors, leaving other channels unchanged. -/
theorem c5_topological_synthesis_witness :
    (("LWRA" : String) ∈ mW.keys)
  ∧ (add_custom_markers gW mW ["LWRA"] = add_custom_markers gW (renameData mW "LWRA" "LWRA") []
     ∧ ∀ s t, (renameData mW "LWRA" "LWRA").data s t = mW.data s t)
  ∧ (("wrist_l" : String) ∉ mW.keys)
  ∧ (∃ m2, add_custom_markers gW mW ["wrist_l"] = add_custom_markers gW m2 []
      ∧ (∀ t (vals : String → V3 ℚ),
          (∀ q ∈ predecessors gW "wrist_l", mW.data q t = some (vals q)) →
          m2.data "wrist_l" t = some (fun i =>
            ((predecessors gW "wrist_l").map (fun q => vals q i)).sum
              / (predecessors gW "wrist_l").length))
      ∧ (∀ s, s ≠ "wrist_l" → ∀ t, m2.data s t = mW.data s t)) := by
  have h1 := (c5_topological_synthesis gW mW "LWRA" []).2.2.2.1 (by decide)
  have h2 := (c5_topological_synthesis gW mW "wrist_l" []).2.2.2.2 (by decide)
    (by decide) (by decide)
  exact ⟨by decide, h1, by decide, h2⟩

/-- C10: in the fixed marker graph, wrist_l has exactly one predecessor
(LWRA) while wrist_r has two (RWRA, RWRB); consequently a synthesized
wrist_l channel equals the LWRA series at every sample, while wrist_r is the
midpoint of RWRA and RWRB. -/
theorem c10_wrist_left_single_parent {K : Type} [Field K] {n : ℕ}
    (markerNames : List String) (m : TimeSeries n (V3 K)) (t : Fin n)
    (hwl : ("wrist_l" : String) ∉ m.keys) (hla : ("LWRA" : String) ∈ m.keys)
    (hwr : ("wrist_r" : String) ∉ m.keys) (hra : ("RWRA" : String) ∈ m.keys)
    (hrb : ("RWRB" : String) ∈ m.keys)
    (xa xb : V3 K) (hxa : m.data "RWRA" t = some xa)
    (hxb : m.data "RWRB" t = some xb) :
    predecessors (generate_marker_graph markerNames) "wrist_l" = ["LWRA"]
  ∧ predecessors (generate_marker_graph markerNames) "wrist_r" = ["RWRA", "RWRB"]
  ∧ (∃ m2, addCustomStep (generate_marker_graph markerNames) m "wrist_l" = .ok m2
      ∧ m2.data "wrist_l" t = m.data "LWRA" t)
  ∧ (∃ m3, addCustomStep (generate_marker_graph markerNames) m "wrist_r" = .ok m3
      ∧ m3.data "wrist_r" t = some (fun i => (xa i + xb i) / 2)) := by
  have h1 : predecessors (generate_marker_graph markerNames) "wrist_l" = ["LWRA"] := rfl
  have h2 : predecessors (generate_marker_graph markerNames) "wrist_r"
      = ["RWRA", "RWRB"] := rfl
  refine ⟨h1, h2, ?_, ?_⟩
  · have hpreds : ∀ q ∈ predecessors (generate_marker_graph markerNames) "wrist_l",
        q ∈ m.keys := by
      rw [h1]
      intro q hq
      rcases List.mem_singleton.mp hq with rfl
      exact hla
    refine ⟨_, addCustomStep_derive _ m "wrist_l" hwl hpreds, ?_⟩
    show (if ("wrist_l" : String) = "wrist_l"
        then meanSeries ((predecessors (generate_marker_graph markerNames) "wrist_l").map
          (fun q => m.data q))
        else m.data "wrist_l") t = m.data "LWRA" t
    rw [if_pos rfl, h1]
    exact meanSeries_singleton (m.data "LWRA") t
  · have hpreds : ∀ q ∈ predecessors (generate_marker_graph markerNames) "wrist_r",
        q ∈ m.keys := by
      rw [h2]
      intro q hq
      rcases List.mem_cons.mp hq with rfl | hq
      · exact hra
      · rcases List.mem_singleton.mp hq with rfl
        exact hrb
    refine ⟨_, addCustomStep_derive _ m "wrist_r" hwr hpreds, ?_⟩
    show (if ("wrist_r" : String) = "wrist_r"
        then meanSeries ((predecessors (generate_marker_graph markerNames) "wrist_r").map
          (fun q => m.data q))
        else m.data "wrist_r") t = some (fun i => (xa i + xb i) / 2)
    rw [if_pos rfl, h2]
    have hv : ∀ q ∈ (["RWRA", "RWRB"] : List String),
        m.data q t = some ((fun q => if q = "RWRA" then xa else xb) q) := by
      intro q hq
      rcases List.mem_cons.mp hq with rfl | hq
      · simpa using hxa
      · rcases List.mem_singleton.mp hq with rfl
        simpa using hxb
    rw [meanSeries_eq ["RWRA", "RWRB"] m t _ (by simp) hv]
    congr 1
    funext i
    have hne2 : ("RWRB" : String) ≠ "RWRA" := by decide
    norm_num [hne2]

/-- C10 witness: on a concrete three-marker input, the synthesized wrist_l
channel equals LWRA's value and the synthesized wrist_r channel is the RWRA
and RWRB midpoint. -/
theorem c10_wrist_left_single_parent_witness :
    (("wrist_l" : String) ∉ m10.keys)
  ∧ (("LWRA" : String) ∈ m10.keys)
  ∧ (∃ m2, addCustomStep (generate_marker_graph ["LWRA", "RWRA", "RWRB"]) m10 "wrist_l"
        = .ok m2 ∧ m2.data "wrist_l" 0 = m10.data "LWRA" 0)
  ∧ (∃ m3, addCustomStep (generate_marker_graph ["LWRA", "RWRA", "RWRB"]) m10 "wrist_r"
        = .ok m3 ∧ m3.data "wrist_r" 0 = some (fun i => (va i + vb i) / 2)) := by
  have h := c10_wrist_left_single_parent ["LWRA", "RWRA", "RWRB"] m10 0
    (by decide) (by decide) (by decide) (by decide) (by decide) va vb rfl rfl
  exact ⟨by decide, by decide, h.2.2.1, h.2.2.2⟩

end Pyomech
